import Mathlib

/-!
Verification development for the youtubh repository: a shallow embedding of
the download-job registry (activeDownloads map), the SSE progress stream,
the extraction wrapper settlement logic, the temp-directory cleanup sweep,
the retrieval handlers, filename sanitization, and duration formatting.

Each definition is translated from the TypeScript source; file locations are
given in the doc comments. Machine numbers are modelled as follows: progress
percentages (JS numbers parsed by parseFloat) as rationals, byte sizes and
millisecond timestamps as naturals.
-/

namespace Youtubh

/-- Entry of the activeDownloads map (src/server/routes.ts lines 10-14 and
src/unnamed/part_003 lines 10-14): percent, downloadPath, videoId. -/
structure Job where
  percent : ℚ
  downloadPath : String
  videoId : String
deriving DecidableEq

/-- Snapshot of what fs.existsSync and fs.statSync report for one path at one
moment: whether the file exists and its byte size. -/
structure FsStat where
  existsSync : Bool
  size : ℕ
deriving DecidableEq

/-- Progress re-scaling from the progress callback of POST /api/videos/download
(src/unnamed/part_003 lines 177-186): a raw value of exactly 100 becomes 90;
a positive raw value is scaled by 0.9 and floored; other values pass through. -/
def adjustPercent (percent : ℚ) : ℚ :=
  if percent = 100 then 90
  else if percent > 0 then ((Rat.floor (percent * (9 / 10)) : ℤ) : ℚ)
  else percent

/-- Body of the progress callback (src/unnamed/part_003 lines 169-193) for a
job that is present in the map: the stored percent is overwritten with the
adjusted value of the newly reported raw percent. -/
def progressUpdate (rawPercent : ℚ) (download : Job) : Job :=
  { download with percent := adjustPercent rawPercent }

/-- Body of the .then completion handler (src/unnamed/part_003 lines 195-215):
the stored percent is set to 100 only if the output file exists with non-zero
size at that moment; otherwise the job is left unchanged. -/
def completeUpdate (f : FsStat) (download : Job) : Job :=
  if f.existsSync then
    if 0 < f.size then { download with percent := 100 } else download
  else download

/-- Body of the .catch failure handler (src/unnamed/part_003 lines 216-227):
the stored percent is set to the failure sentinel -1. -/
def failUpdate (download : Job) : Job :=
  { download with percent := -1 }

/-- The three ways the registry mutates a stored job after creation: a parsed
progress report, resolution of the download promise (with the file stat seen
by the handler), or rejection of the download promise. -/
inductive RegistryEvent where
  | report (rawPercent : ℚ)
  | complete (f : FsStat)
  | fail
deriving DecidableEq

/-- Dispatch of a registry event to the corresponding handler body. -/
def applyEvent : RegistryEvent → Job → Job
  | RegistryEvent.report rawPercent, download => progressUpdate rawPercent download
  | RegistryEvent.complete f, download => completeUpdate f download
  | RegistryEvent.fail, download => failUpdate download

/-- Computable Rat.floor agrees with the mathematical floor function. -/
theorem ratFloor_eq_intFloor (q : ℚ) : (Rat.floor q : ℤ) = ⌊q⌋ := by
  rw [Rat.floor_def', Rat.floor_def]

/-- Test of the character class of the regex in title.replace (routes.ts
lines 200 and 300): the class a-z0-9 with the i flag keeps exactly ASCII
letters and digits. -/
def isTitleAlnum (c : Char) : Bool :=
  (decide ('a' ≤ c) && decide (c ≤ 'z')) ||
  (decide ('A' ≤ c) && decide (c ≤ 'Z')) ||
  (decide ('0' ≤ c) && decide (c ≤ '9'))

/-- Replacement applied to a single character of the title: characters in the
class are kept, every other character becomes one underscore. -/
def sanitizeChar (c : Char) : Char :=
  if isTitleAlnum c then c else '_'

/-- The whole-title sanitization, one replacement per character, as performed
by title.replace with a global per-character regex. -/
def sanitizeTitle (title : String) : String :=
  String.mk (title.data.map sanitizeChar)

/-- Display file name derived in sendProgress (src/server/routes.ts lines
199-201): sanitized title plus the mp4 extension. -/
def fileNameFromTitle (title : String) : String :=
  sanitizeTitle title ++ ".mp4"

/-- Display file name derived in the retrieval handler (src/server/routes.ts
lines 298-301), written at a second site in the source with the same
replacement expression. -/
def fileNameFromTitleRetrieve (title : String) : String :=
  String.mk (title.data.map sanitizeChar) ++ ".mp4"

/-- Fallback file name used when no stored title is available (routes.ts
lines 201 and 298). -/
def fallbackFileName (videoId : String) : String :=
  "youtube-video-" ++ videoId ++ ".mp4"

/-- File name chosen by sendProgress given the optional stored title. -/
def fileNameFor (title : Option String) (videoId : String) : String :=
  match title with
  | some t => fileNameFromTitle t
  | none => fallbackFileName videoId

/-- File name chosen by the retrieval handlers given the optional stored
title. -/
def fileNameForRetrieve (title : Option String) (videoId : String) : String :=
  match title with
  | some t => fileNameFromTitleRetrieve t
  | none => fallbackFileName videoId

/-- One SSE data message written by the progress route: the percent field,
and the optional error, fileName and completed fields. -/
structure SseMessage where
  percent : ℚ
  error : Option String
  fileName : Option String
  completed : Bool
deriving DecidableEq

/-- Whether the polling interval is still active after one sendProgress call:
keepPolling if neither clearInterval nor res.end was reached, ended
otherwise. -/
inductive StreamControl where
  | keepPolling
  | ended
deriving DecidableEq

/-- One invocation of sendProgress (src/server/routes.ts lines 151-235,
src/unnamed/part_003 lines 258-343) given the current map entry for the
downloadId, the stat of its downloadPath and the optionally stored title.
Returns the SSE messages written during the call and whether the stream was
closed. The current percent is always written first; the file is checked
only afterwards, when the stored percent has reached 100. -/
def sendProgress (download : Option Job) (f : FsStat) (title : Option String) :
    List SseMessage × StreamControl :=
  match download with
  | none =>
      ([⟨0, some "Download was lost during processing", none, false⟩], StreamControl.ended)
  | some download =>
      let progressMsg : SseMessage := ⟨download.percent, none, none, false⟩
      if 100 ≤ download.percent then
        if f.existsSync then
          if f.size = 0 then
            ([progressMsg, ⟨0, some "Download file is empty", none, false⟩], StreamControl.ended)
          else
            ([progressMsg,
              ⟨100, none, some (fileNameFor title download.videoId), true⟩], StreamControl.ended)
        else
          ([progressMsg,
            ⟨0, some "Download file was not created properly", none, false⟩], StreamControl.ended)
      else
        ([progressMsg], StreamControl.keepPolling)

/-- Settlement of the promise returned by downloadYouTubeVideo. -/
inductive DownloadOutcome where
  | resolved
  | rejected (message : String)
deriving DecidableEq

/-- The close handler installed inside the promise executor of
downloadYouTubeVideo (src/server/youtube-dl.ts lines 180-212): when the
subprocess closes with exit code code, the handler resolves if the output
file exists with non-zero size and rejects otherwise. The exit code is
received but never inspected. -/
def settleOnClose (code : Int) (f : FsStat) : DownloadOutcome :=
  if f.existsSync then
    if 0 < f.size then DownloadOutcome.resolved
    else DownloadOutcome.rejected "Download file is empty"
  else DownloadOutcome.rejected "Download file not found"

/-- Outcome of a file-retrieval request: a JSON error response with a status
code, an empty 200 for a HEAD request, or the backing file streamed as an
attachment under a display file name. -/
inductive Response where
  | jsonError (status : ℕ) (message : String)
  | headOk
  | serveFile (path : String) (fileName : String)
deriving DecidableEq

/-- The GET /api/videos/download/:downloadId handler of src/unnamed/part_001
lines 199-236: a missing map entry or a stored percent below 100 yields a
404 without touching the file; otherwise the recorded path is streamed. -/
def serveDownloadV1 (download : Option Job) (title : Option String) : Response :=
  match download with
  | none => Response.jsonError 404 "Download not found or not completed"
  | some download =>
      if download.percent < 100 then
        Response.jsonError 404 "Download not found or not completed"
      else
        Response.serveFile download.downloadPath
          (fileNameForRetrieve title download.videoId)

/-- The GET /api/videos/download/:downloadId handler of src/server/routes.ts
lines 249-368: checks only that the map entry exists, that the recorded file
exists, and that it is non-empty; the stored percent is never consulted. -/
def serveDownload (download : Option Job) (fsStat : String → FsStat)
    (isHeadRequest : Bool) (title : Option String) : Response :=
  match download with
  | none => Response.jsonError 404 "Download not found"
  | some download =>
      if (fsStat download.downloadPath).existsSync then
        if (fsStat download.downloadPath).size = 0 then
          Response.jsonError 500 "Downloaded file is empty"
        else if isHeadRequest then Response.headOk
        else
          Response.serveFile download.downloadPath
            (fileNameForRetrieve title download.videoId)
      else Response.jsonError 404 "Download file not found on server"

/-- Age threshold of the temp-directory sweep (src/unnamed/part_003 line 57):
files older than 30 minutes in milliseconds are deleted. -/
def cleanupThresholdMs : ℕ := 1800000

/-- Model of path.join for the two-segment joins used by the handlers. -/
def joinPath (dir name : String) : String := dir ++ "/" ++ name

/-- One file of the temp directory as seen by the sweep: its name, its mtime
in milliseconds, and whether fs.statSync or fs.unlinkSync throws for it
during this pass (the per-file catch branch). -/
structure TempFile where
  name : String
  mtimeMs : ℕ
  statFails : Bool
deriving DecidableEq

/-- Condition under which one file is removed by the sweep: not an active
download path, no stat or unlink error, and strictly older than the
threshold. -/
def sweepDeletes (activeFilePaths : List String) (now : ℕ) (tempDir : String)
    (file : TempFile) : Bool :=
  !(activeFilePaths.contains (joinPath tempDir file.name)) && !file.statFails &&
    decide (cleanupThresholdMs < now - file.mtimeMs)

/-- Body of the cleanup loop for one directory entry: skip active download
paths, let a stat or unlink error affect only this file, and unlink the file
when its age exceeds the threshold. The accumulator collects deleted paths. -/
def sweepStep (activeFilePaths : List String) (now : ℕ) (tempDir : String)
    (deleted : List String) (file : TempFile) : List String :=
  if activeFilePaths.contains (joinPath tempDir file.name) then deleted
  else if file.statFails then deleted
  else if cleanupThresholdMs < now - file.mtimeMs then
    deleted ++ [joinPath tempDir file.name]
  else deleted

/-- The cleanupTempFiles loop (src/unnamed/part_003 lines 26-76): iterates
over the directory listing, applying the sweep step to each file in order.
Returns the deleted paths in order. -/
def cleanupTempFiles (tempDir : String) (files : List TempFile)
    (activeFilePaths : List String) (now : ℕ) : List String :=
  files.foldl (sweepStep activeFilePaths now tempDir) []

/-- One entry of the temp directory listing used by the recovery scan: name
and modification time in milliseconds. -/
structure DirEntry where
  name : String
  mtimeMs : ℕ
deriving DecidableEq

/-- Split of a character sequence at every dash, the model of the JS split
on the one-character separator used at src/unnamed/part_003 line 760. -/
def splitOnDash : List Char → List (List Char)
  | [] => [[]]
  | c :: rest =>
      if c = '-' then [] :: splitOnDash rest
      else
        match splitOnDash rest with
        | t :: ts => (c :: t) :: ts
        | [] => [[c]]

/-- The shared name stem used by the recovery scan (src/unnamed/part_003
line 760): the first two dash-separated tokens of the recorded base name,
joined back with a dash. -/
def recoveryStem (fileBaseName : String) : String :=
  String.mk (List.intercalate ['-'] ((splitOnDash fileBaseName.data).take 2))

/-- Model of String.prototype.startsWith on character sequences. -/
def jsStartsWith (s pat : String) : Bool :=
  pat.data.isPrefixOf s.data

/-- Model of String.prototype.endsWith on character sequences. -/
def jsEndsWith (s pat : String) : Bool :=
  pat.data.isSuffixOf s.data

/-- Occurrence of a pattern inside a character sequence. -/
def listIncludes (pat : List Char) : List Char → Bool
  | [] => pat.isEmpty
  | c :: rest => pat.isPrefixOf (c :: rest) || listIncludes pat rest

/-- Model of String.prototype.includes on character sequences. -/
def jsIncludes (s pat : String) : Bool :=
  listIncludes pat.data s.data

/-- Filter of the recovery scan (src/unnamed/part_003 line 769): the name
starts with the stem, ends in .mp4, and does not contain a .part- marker. -/
def isRecoveryCandidate (stem name : String) : Bool :=
  jsStartsWith name stem && jsEndsWith name ".mp4" && !(jsIncludes name ".part-")

/-- Insertion step of the sort on candidate files: newer files (larger
mtime) come first, matching the comparator on mtimes in descending order. -/
def insertByNewest (f : DirEntry) : List DirEntry → List DirEntry
  | [] => [f]
  | g :: rest =>
      if g.mtimeMs ≤ f.mtimeMs then f :: g :: rest
      else g :: insertByNewest f rest

/-- Sort of the matching files by descending modification time
(src/unnamed/part_003 line 771). -/
def sortByNewest (l : List DirEntry) : List DirEntry :=
  l.foldr insertByNewest []

/-- The alternative-file scan of the retrieval handler (src/unnamed/part_003
lines 757-779): filter the directory listing to candidates sharing the
recovery stem, sort newest first, and take the first name, if any. -/
def recoverScan (fileBaseName : String) (dirFiles : List DirEntry) : Option String :=
  let stem := recoveryStem fileBaseName
  let matchingFiles := sortByNewest (dirFiles.filter (fun f => isRecoveryCandidate stem f.name))
  matchingFiles.head?.map DirEntry.name

/-- Path resolution of GET /api/videos/download/:downloadId in
src/unnamed/part_003 lines 753-787: if the recorded path exists it is kept;
otherwise the recovery scan runs over the same directory and, when it finds
an alternative, the request proceeds with that path; with no alternative the
handler answers 404. -/
def resolveDownloadPath (fileDir fileBaseName : String) (fsExists : String → Bool)
    (dirFiles : List DirEntry) : Option String :=
  if fsExists (joinPath fileDir fileBaseName) then some (joinPath fileDir fileBaseName)
  else
    match recoverScan fileBaseName dirFiles with
    | some alternativeName => some (joinPath fileDir alternativeName)
    | none => none

/-- Zero padding to two digits, the model of padStart 2 with the zero
character on a decimal rendering. -/
def pad2 (n : ℕ) : String :=
  if (toString n).length < 2 then "0" ++ toString n else toString n

/-- The formatDuration function (src/server/youtube-dl.ts lines 236-248): a
missing or zero duration renders as Unknown, otherwise hours, minutes and
seconds are split off and rendered with colons, the hour field appearing
only when positive. -/
def formatDuration (seconds : Option ℕ) : String :=
  match seconds with
  | none => "Unknown"
  | some s =>
      if s = 0 then "Unknown"
      else
        let hours := s / 3600
        let minutes := (s % 3600) / 60
        let remainingSeconds := s % 60
        if 0 < hours then
          toString hours ++ ":" ++ pad2 minutes ++ ":" ++ pad2 remainingSeconds
        else
          toString minutes ++ ":" ++ pad2 remainingSeconds

/-- Zero padding as the specification words it: values below ten get one
leading zero. Stated independently of the decimal rendering used by pad2. -/
def zeroPad2 (n : ℕ) : String :=
  if n < 10 then "0" ++ toString n else toString n

/-- Rendering of a positive duration as the claim words it: h:mm:ss when the
value is at least one hour, m:ss otherwise, with two-digit zero padding on
the minute and second fields after the leading field. -/
def claimDurationString (s : ℕ) : String :=
  if 3600 ≤ s then
    toString (s / 3600) ++ ":" ++ zeroPad2 (s / 60 % 60) ++ ":" ++ zeroPad2 (s % 60)
  else
    toString (s / 60) ++ ":" ++ zeroPad2 (s % 60)

/-! Helper lemmas about the re-scaling function. -/

theorem adjustPercent_eq_floor (p : ℚ) (h100 : p ≠ 100) (hpos : 0 < p) :
    adjustPercent p = ((⌊p * (9 / 10)⌋ : ℤ) : ℚ) := by
  rw [adjustPercent, if_neg h100, if_pos hpos, ratFloor_eq_intFloor]

theorem adjustPercent_zero : adjustPercent 0 = 0 := by
  norm_num [adjustPercent]

theorem adjustPercent_hundred : adjustPercent 100 = 90 := by
  norm_num [adjustPercent]

theorem adjustPercent_nonneg (p : ℚ) (hp : 0 ≤ p) : 0 ≤ adjustPercent p := by
  by_cases h100 : p = 100
  · subst h100; rw [adjustPercent_hundred]; norm_num
  · by_cases hpos : 0 < p
    · rw [adjustPercent_eq_floor p h100 hpos]
      have hx : (0 : ℚ) ≤ p * (9 / 10) := by positivity
      exact_mod_cast Int.floor_nonneg.mpr hx
    · have hp0 : p = 0 := le_antisymm (not_lt.mp hpos) hp
      subst hp0; rw [adjustPercent_zero]

theorem adjustPercent_le_ninety (p : ℚ) (hp : p ≤ 100) : adjustPercent p ≤ 90 := by
  by_cases h100 : p = 100
  · subst h100; rw [adjustPercent_hundred]
  · by_cases hpos : 0 < p
    · rw [adjustPercent_eq_floor p h100 hpos]
      have hx : p * (9 / 10) ≤ 90 := by nlinarith
      calc ((⌊p * (9 / 10)⌋ : ℤ) : ℚ) ≤ p * (9 / 10) := Int.floor_le _
        _ ≤ 90 := hx
    · rw [adjustPercent, if_neg h100, if_neg hpos]
      have : p ≤ 0 := not_lt.mp hpos
      linarith

theorem adjustPercent_mono (p q : ℚ) (hp : 0 ≤ p) (hpq : p ≤ q) (hq : q ≤ 100) :
    adjustPercent p ≤ adjustPercent q := by
  by_cases hq100 : q = 100
  · subst hq100
    rw [adjustPercent_hundred]
    exact adjustPercent_le_ninety p hpq
  · have hp100 : p ≠ 100 := by
      intro h; subst h
      exact hq100 (le_antisymm hq hpq)
    by_cases hqpos : 0 < q
    · rw [adjustPercent_eq_floor q hq100 hqpos]
      by_cases hppos : 0 < p
      · rw [adjustPercent_eq_floor p hp100 hppos]
        have hmul : p * (9 / 10) ≤ q * (9 / 10) := by nlinarith
        exact_mod_cast Int.floor_le_floor hmul
      · have hp0 : p = 0 := le_antisymm (not_lt.mp hppos) hp
        subst hp0
        rw [adjustPercent_zero]
        have hx : (0 : ℚ) ≤ q * (9 / 10) := by positivity
        exact_mod_cast Int.floor_nonneg.mpr hx
    · have hq0 : q = 0 := le_antisymm (not_lt.mp hqpos) (hp.trans hpq)
      have hp0 : p = 0 := le_antisymm (hpq.trans_eq hq0) hp
      subst hq0; subst hp0
      exact le_refl _

/-- C1 (corrected): the registry performs no out-of-order filtering. The
progress callback stores exactly the re-scaled value of the most recent raw
report, whatever the previously stored percent was; the displayed sequence
is non-decreasing only because the re-scaling map itself is monotone on raw
values in the extractor range, not because lower updates are ignored. -/
theorem progressUpdate_last_write_and_mono (p q : ℚ) (j : Job)
    (hp : 0 ≤ p) (hpq : p ≤ q) (hq : q ≤ 100) :
    (progressUpdate p j).percent = adjustPercent p ∧
      adjustPercent p ≤ adjustPercent q :=
  ⟨rfl, adjustPercent_mono p q hp hpq hq⟩

theorem progressUpdate_last_write_and_mono_witness :
    (0 : ℚ) ≤ 30 ∧ (30 : ℚ) ≤ 60 ∧ (60 : ℚ) ≤ 100 ∧
      (progressUpdate 30 (Job.mk 0 "temp/a.mp4" "vid")).percent = adjustPercent 30 ∧
      adjustPercent 30 ≤ adjustPercent 60 :=
  ⟨by decide, by decide, by decide,
    (progressUpdate_last_write_and_mono 30 60 (Job.mk 0 "temp/a.mp4" "vid")
      (by decide) (by decide) (by decide)).1,
    (progressUpdate_last_write_and_mono 30 60 (Job.mk 0 "temp/a.mp4" "vid")
      (by decide) (by decide) (by decide)).2⟩

/-- C1 counterexample: with the stored display percent at 90 (the value after
the raw 100 report of the first stream), a later raw report of 50 stores
display 45, strictly lowering the stored value; and a report arriving after
the failure sentinel -1 also overwrites it. The claim that lower or
post-terminal updates are ignored is false of the code. -/
theorem progressUpdate_overwrites_cex :
    (progressUpdate 50 (Job.mk 90 "temp/a.mp4" "vid")).percent = 45 ∧
      (45 : ℚ) < 90 ∧
      (progressUpdate 50 (Job.mk (-1) "temp/a.mp4" "vid")).percent = 45 := by
  refine ⟨?_, by norm_num, ?_⟩ <;>
    · show adjustPercent 50 = 45
      rw [adjustPercent_eq_floor 50 (by norm_num) (by norm_num)]
      norm_num

/-- C3 (confirmed): the re-scaling policy of the progress handling in
POST /api/videos/download. Raw extractor percentages land in the display
range 0 to 90, raw 100 maps to 90, a strictly intermediate raw value is
scaled by nine tenths and floored, a raw report never produces display 100,
only the completion event with a validated file sets display 100, and the
failure event sets the sentinel. -/
theorem adjustPercent_rescaling_policy :
    (∀ p : ℚ, 0 ≤ p → p ≤ 100 → 0 ≤ adjustPercent p ∧ adjustPercent p ≤ 90) ∧
      adjustPercent 100 = 90 ∧
      (∀ p : ℚ, 0 < p → p < 100 → adjustPercent p = ((⌊p * (9 / 10)⌋ : ℤ) : ℚ)) ∧
      (∀ (p : ℚ) (j : Job), 0 ≤ p → p ≤ 100 →
        (applyEvent (RegistryEvent.report p) j).percent ≠ 100) ∧
      (∀ (f : FsStat) (j : Job), (applyEvent (RegistryEvent.complete f) j).percent = 100 →
        j.percent = 100 ∨ (f.existsSync = true ∧ 0 < f.size)) ∧
      (∀ j : Job, (applyEvent RegistryEvent.fail j).percent = -1) := by
  refine ⟨?_, adjustPercent_hundred, ?_, ?_, ?_, fun j => rfl⟩
  · exact fun p hp hq => ⟨adjustPercent_nonneg p hp, adjustPercent_le_ninety p hq⟩
  · exact fun p hpos hlt => adjustPercent_eq_floor p (ne_of_lt hlt) hpos
  · intro p j hp hq h
    have hle : adjustPercent p ≤ 90 := adjustPercent_le_ninety p hq
    have : (applyEvent (RegistryEvent.report p) j).percent = adjustPercent p := rfl
    rw [this] at h
    rw [h] at hle
    norm_num at hle
  · intro f j h
    have h2 : (completeUpdate f j).percent = 100 := h
    unfold completeUpdate at h2
    by_cases hex : f.existsSync
    · by_cases hsz : 0 < f.size
      · exact Or.inr ⟨hex, hsz⟩
      · rw [if_pos hex, if_neg hsz] at h2
        exact Or.inl h2
    · rw [if_neg hex] at h2
      exact Or.inl h2

theorem adjustPercent_rescaling_policy_witness :
    (0 : ℚ) ≤ 50 ∧ (50 : ℚ) ≤ 100 ∧
      0 ≤ adjustPercent 50 ∧ adjustPercent 50 ≤ 90 ∧
      (0 : ℚ) < 50 ∧ (50 : ℚ) < 100 ∧
      adjustPercent 50 = ((⌊(50 : ℚ) * (9 / 10)⌋ : ℤ) : ℚ) ∧
      (applyEvent (RegistryEvent.report 50) (Job.mk 0 "temp/a.mp4" "vid")).percent ≠ 100 ∧
      (applyEvent (RegistryEvent.complete (FsStat.mk true 7))
        (Job.mk 90 "temp/a.mp4" "vid")).percent = 100 :=
  ⟨by decide, by decide,
    (adjustPercent_rescaling_policy.1 50 (by decide) (by decide)).1,
    (adjustPercent_rescaling_policy.1 50 (by decide) (by decide)).2,
    by decide, by decide,
    adjustPercent_rescaling_policy.2.2.1 50 (by decide) (by decide),
    adjustPercent_rescaling_policy.2.2.2.1 50 (Job.mk 0 "temp/a.mp4" "vid")
      (by decide) (by decide),
    by decide⟩

/-- Unfolding equation of sendProgress on a present map entry. -/
theorem sendProgress_eq (j : Job) (f : FsStat) (title : Option String) :
    sendProgress (some j) f title =
      if 100 ≤ j.percent then
        if f.existsSync then
          if f.size = 0 then
            ([⟨j.percent, none, none, false⟩,
              ⟨0, some "Download file is empty", none, false⟩], StreamControl.ended)
          else
            ([⟨j.percent, none, none, false⟩,
              ⟨100, none, some (fileNameFor title j.videoId), true⟩], StreamControl.ended)
        else
          ([⟨j.percent, none, none, false⟩,
            ⟨0, some "Download file was not created properly", none, false⟩],
            StreamControl.ended)
      else ([⟨j.percent, none, none, false⟩], StreamControl.keepPolling) := rfl

/-- C2 (corrected): only the final completion event is guarded by the file
validation. A message with completed set is emitted only when the backing
file exists and is non-empty at that moment, and when validation fails at
the 100 percent boundary the stream ends with an error payload and no
completion event; the plain progress message that precedes the check is not
guarded. -/
theorem sendProgress_completion_requires_valid_file
    (download : Option Job) (f : FsStat) (title : Option String) :
    (∀ m ∈ (sendProgress download f title).1, m.completed = true →
      f.existsSync = true ∧ 0 < f.size) ∧
    (∀ j : Job, download = some j → 100 ≤ j.percent →
      ¬(f.existsSync = true ∧ 0 < f.size) →
      (∃ m ∈ (sendProgress download f title).1,
          m.error.isSome = true ∧ m.completed = false) ∧
        (sendProgress download f title).2 = StreamControl.ended ∧
        ∀ m ∈ (sendProgress download f title).1, m.completed = false) := by
  constructor
  · intro m hm hc
    match download with
    | none =>
        simp only [sendProgress, List.mem_singleton] at hm
        subst hm
        simp at hc
    | some j =>
        rw [sendProgress_eq] at hm
        split_ifs at hm with h1 h2 h3
        · simp only [List.mem_cons, List.not_mem_nil, or_false] at hm
          rcases hm with hm | hm <;> (subst hm; simp at hc)
        · exact ⟨by simpa using h2, Nat.pos_of_ne_zero h3⟩
        · simp only [List.mem_cons, List.not_mem_nil, or_false] at hm
          rcases hm with hm | hm <;> (subst hm; simp at hc)
        · simp only [List.mem_singleton] at hm
          subst hm
          simp at hc
  · intro j hj hp hnv
    subst hj
    rw [sendProgress_eq, if_pos hp]
    by_cases hex : f.existsSync
    · have hsz : f.size = 0 := by
        by_contra hsz
        exact hnv ⟨by simpa using hex, Nat.pos_of_ne_zero hsz⟩
      rw [if_pos hex, if_pos hsz]
      refine ⟨⟨⟨0, some "Download file is empty", none, false⟩, by simp, by simp⟩, rfl, ?_⟩
      intro m hm
      simp only [List.mem_cons, List.not_mem_nil, or_false] at hm
      rcases hm with hm | hm <;> (subst hm; rfl)
    · rw [if_neg hex]
      refine ⟨⟨⟨0, some "Download file was not created properly", none, false⟩,
        by simp, by simp⟩, rfl, ?_⟩
      intro m hm
      simp only [List.mem_cons, List.not_mem_nil, or_false] at hm
      rcases hm with hm | hm <;> (subst hm; rfl)

theorem sendProgress_completion_requires_valid_file_witness :
    ((FsStat.mk true 7).existsSync = true ∧ 0 < (FsStat.mk true 7).size) ∧
      (∃ m ∈ (sendProgress (some (Job.mk 100 "temp/a.mp4" "vid")) (FsStat.mk true 0) none).1,
        m.error.isSome = true ∧ m.completed = false) :=
  ⟨(sendProgress_completion_requires_valid_file
        (some (Job.mk 100 "temp/a.mp4" "vid")) (FsStat.mk true 7) none).1
      ⟨100, none, some (fileNameFor none "vid"), true⟩ (by decide) rfl,
    ((sendProgress_completion_requires_valid_file
        (some (Job.mk 100 "temp/a.mp4" "vid")) (FsStat.mk true 0) none).2
      (Job.mk 100 "temp/a.mp4" "vid") rfl (by decide) (by decide)).1⟩

/-- C2 counterexample: with the stored percent at 100 and the backing file
missing, the very first message of the sendProgress call already carries
percent 100 (it is written before the existence check), and only then the
error payload follows. A percent 100 value is thus reported to the client
at a moment when the output path has no backing file. -/
theorem sendProgress_percent100_before_validation_cex :
    sendProgress (some (Job.mk 100 "temp/a.mp4" "vid")) (FsStat.mk false 0) none =
      ([⟨100, none, none, false⟩,
        ⟨0, some "Download file was not created properly", none, false⟩],
        StreamControl.ended) ∧
      (FsStat.mk false 0).existsSync = false ∧
      ((sendProgress (some (Job.mk 100 "temp/a.mp4" "vid")) (FsStat.mk false 0) none).1.map
        SseMessage.percent).head? = some 100 := by
  decide

/-- C4 (corrected): the close handler settles the download promise purely on
the state of the output file. It resolves exactly when the file exists with
non-zero size, and rejects with the missing-file or empty-file message
otherwise; the exit code passed to the handler plays no role. -/
theorem settleOnClose_resolves_iff_file_valid (code : Int) (f : FsStat) :
    (settleOnClose code f = DownloadOutcome.resolved ↔
      f.existsSync = true ∧ 0 < f.size) ∧
    (f.existsSync = false →
      settleOnClose code f = DownloadOutcome.rejected "Download file not found") ∧
    (f.existsSync = true → f.size = 0 →
      settleOnClose code f = DownloadOutcome.rejected "Download file is empty") := by
  obtain ⟨ex, sz⟩ := f
  cases ex <;> simp [settleOnClose] <;> omega

theorem settleOnClose_resolves_iff_file_valid_witness :
    settleOnClose 0 (FsStat.mk false 0) = DownloadOutcome.rejected "Download file not found" ∧
      settleOnClose 0 (FsStat.mk true 0) = DownloadOutcome.rejected "Download file is empty" :=
  ⟨(settleOnClose_resolves_iff_file_valid 0 (FsStat.mk false 0)).2.1 rfl,
    (settleOnClose_resolves_iff_file_valid 0 (FsStat.mk true 0)).2.2 rfl rfl⟩

/-- C4 counterexample: the subprocess exits with the non-zero code 1, yet
because the output file exists with non-zero size the close handler resolves
the promise instead of rejecting, refuting the claim that a non-zero exit
code always rejects. -/
theorem settleOnClose_nonzero_exit_resolves_cex :
    settleOnClose 1 (FsStat.mk true 1024) = DownloadOutcome.resolved ∧ (1 : Int) ≠ 0 := by
  decide

/-- C5 (corrected): only the part_001 iteration guards retrieval on the
stored percent. That handler answers 404 for a missing entry or a percent
below 100 without touching the file, while the current routes.ts handler
ignores the stored percent entirely: its response is unchanged if the
percent is replaced by 0, so a Running job with an existing non-empty file
is served. -/
theorem retrieval_percent_guard_versions (j : Job) (title : Option String)
    (fsStat : String → FsStat) (isHeadRequest : Bool) :
    (j.percent < 100 → serveDownloadV1 (some j) title =
      Response.jsonError 404 "Download not found or not completed") ∧
    (serveDownloadV1 none title =
      Response.jsonError 404 "Download not found or not completed") ∧
    (serveDownload (some j) fsStat isHeadRequest title =
      serveDownload (some (Job.mk 0 j.downloadPath j.videoId)) fsStat isHeadRequest title) := by
  refine ⟨?_, rfl, rfl⟩
  intro h
  have heq : serveDownloadV1 (some j) title =
      if j.percent < 100 then Response.jsonError 404 "Download not found or not completed"
      else Response.serveFile j.downloadPath (fileNameForRetrieve title j.videoId) := rfl
  rw [heq, if_pos h]

theorem retrieval_percent_guard_versions_witness :
    (50 : ℚ) < 100 ∧
      serveDownloadV1 (some (Job.mk 50 "temp/a-b-1.mp4" "vid")) none =
        Response.jsonError 404 "Download not found or not completed" :=
  ⟨by decide,
    (retrieval_percent_guard_versions (Job.mk 50 "temp/a-b-1.mp4" "vid") none
      (fun _ => FsStat.mk true 3) false).1 (by decide)⟩

/-- C5 counterexample: in the current routes.ts handler a job whose stored
percent is 50 (still Running) is served the backing file bytes as soon as
the file exists and is non-empty; no NotReady error is produced. -/
theorem serveDownload_running_job_served_cex :
    serveDownload (some (Job.mk 50 "temp/a-b-1.mp4" "vid")) (fun _ => FsStat.mk true 3)
        false none =
      Response.serveFile "temp/a-b-1.mp4" "youtube-video-vid.mp4" ∧ (50 : ℚ) < 100 := by
  decide

/-- C7 (corrected): the failure handler stores the sentinel -1, but the
progress stream treats it like any value below 100: each poll emits a plain
message carrying percent -1 with no error field and leaves the interval
running. A retrieval request for the failed job errors out whenever the
backing file is missing or empty, which is exactly the condition under which
the download promise rejects. -/
theorem failJob_sentinel_stream_and_retrieval (j : Job) (f : FsStat)
    (title : Option String) (fsStat : String → FsStat) (isHeadRequest : Bool) :
    (failUpdate j).percent = -1 ∧
    (j.percent = -1 → sendProgress (some j) f title =
      ([⟨-1, none, none, false⟩], StreamControl.keepPolling)) ∧
    ((fsStat j.downloadPath).existsSync = false →
      serveDownload (some j) fsStat isHeadRequest title =
        Response.jsonError 404 "Download file not found on server") ∧
    ((fsStat j.downloadPath).existsSync = true → (fsStat j.downloadPath).size = 0 →
      serveDownload (some j) fsStat isHeadRequest title =
        Response.jsonError 500 "Downloaded file is empty") := by
  refine ⟨rfl, ?_, ?_, ?_⟩
  · intro hp
    rw [sendProgress_eq, hp, if_neg (by norm_num)]
  · intro hex
    have heq : serveDownload (some j) fsStat isHeadRequest title =
        if (fsStat j.downloadPath).existsSync then
          if (fsStat j.downloadPath).size = 0 then
            Response.jsonError 500 "Downloaded file is empty"
          else if isHeadRequest then Response.headOk
          else Response.serveFile j.downloadPath (fileNameForRetrieve title j.videoId)
        else Response.jsonError 404 "Download file not found on server" := rfl
    rw [heq, if_neg (by simp [hex])]
  · intro hex hsz
    have heq : serveDownload (some j) fsStat isHeadRequest title =
        if (fsStat j.downloadPath).existsSync then
          if (fsStat j.downloadPath).size = 0 then
            Response.jsonError 500 "Downloaded file is empty"
          else if isHeadRequest then Response.headOk
          else Response.serveFile j.downloadPath (fileNameForRetrieve title j.videoId)
        else Response.jsonError 404 "Download file not found on server" := rfl
    rw [heq, if_pos (by simp [hex]), if_pos hsz]

theorem failJob_sentinel_stream_and_retrieval_witness :
    (failUpdate (Job.mk 42 "temp/a.mp4" "vid")).percent = -1 ∧
      sendProgress (some (Job.mk (-1) "temp/a.mp4" "vid")) (FsStat.mk false 0) none =
        ([⟨-1, none, none, false⟩], StreamControl.keepPolling) ∧
      serveDownload (some (Job.mk (-1) "temp/a.mp4" "vid")) (fun _ => FsStat.mk false 0)
          false none =
        Response.jsonError 404 "Download file not found on server" :=
  ⟨(failJob_sentinel_stream_and_retrieval (Job.mk 42 "temp/a.mp4" "vid") (FsStat.mk false 0)
      none (fun _ => FsStat.mk false 0) false).1,
    (failJob_sentinel_stream_and_retrieval (Job.mk (-1) "temp/a.mp4" "vid") (FsStat.mk false 0)
      none (fun _ => FsStat.mk false 0) false).2.1 rfl,
    (failJob_sentinel_stream_and_retrieval (Job.mk (-1) "temp/a.mp4" "vid") (FsStat.mk false 0)
      none (fun _ => FsStat.mk false 0) false).2.2.1 rfl⟩

/-- C7 counterexample: after the catch handler stores the sentinel, a
sendProgress poll emits a message whose percent is -1 and whose error field
is empty, and the interval keeps running: the stream neither emits an error
payload nor closes. -/
theorem failed_job_stream_keeps_polling_cex :
    sendProgress (some (failUpdate (Job.mk 42 "temp/a.mp4" "vid"))) (FsStat.mk false 0) none =
      ([⟨-1, none, none, false⟩], StreamControl.keepPolling) := by
  decide

/-- Folding the sweep step appends to the accumulator exactly the joined
paths of the files that satisfy the deletion condition, in listing order. -/
theorem sweepStep_foldl (act : List String) (now : ℕ) (tempDir : String)
    (files : List TempFile) (acc : List String) :
    files.foldl (sweepStep act now tempDir) acc =
      acc ++ (files.filter (sweepDeletes act now tempDir)).map
        (fun f => joinPath tempDir f.name) := by
  induction files generalizing acc with
  | nil => simp
  | cons f fs ih =>
      rw [List.foldl_cons, ih]
      by_cases h1 : joinPath tempDir f.name ∈ act
      · simp [sweepStep, sweepDeletes, h1, List.filter_cons]
      · by_cases h2 : f.statFails
        · simp [sweepStep, sweepDeletes, h1, h2, List.filter_cons]
        · by_cases h3 : cleanupThresholdMs < now - f.mtimeMs
          · simp [sweepStep, sweepDeletes, h1, h2, h3, List.filter_cons]
          · simp [sweepStep, sweepDeletes, h1, h2, h3, List.filter_cons]

/-- Membership characterization of the sweep result. -/
theorem cleanupTempFiles_eq (tempDir : String) (files : List TempFile)
    (act : List String) (now : ℕ) :
    cleanupTempFiles tempDir files act now =
      (files.filter (sweepDeletes act now tempDir)).map
        (fun f => joinPath tempDir f.name) := by
  rw [cleanupTempFiles, sweepStep_foldl, List.nil_append]

/-- C6 (confirmed): the sweep never deletes a path referenced by an entry of
the activeDownloads map whatever its age; a path is deleted exactly when
some listed file joins to it that is unreferenced, suffered no stat or
unlink error, and is older than the fixed threshold; and the fate of each
file is independent of every other file in the same pass, so one failure
does not abort the remainder. -/
theorem cleanup_sweep_policy (tempDir : String) (files : List TempFile)
    (act : List String) (now : ℕ) :
    (∀ p ∈ act, p ∉ cleanupTempFiles tempDir files act now) ∧
    (∀ p : String, p ∈ cleanupTempFiles tempDir files act now ↔
      ∃ f ∈ files, p = joinPath tempDir f.name ∧
        act.contains (joinPath tempDir f.name) = false ∧ f.statFails = false ∧
        cleanupThresholdMs < now - f.mtimeMs) ∧
    (∀ (pre : List TempFile) (f : TempFile) (post : List TempFile),
      cleanupTempFiles tempDir (pre ++ f :: post) act now =
        cleanupTempFiles tempDir pre act now ++
          (if sweepDeletes act now tempDir f then [joinPath tempDir f.name] else []) ++
          cleanupTempFiles tempDir post act now) := by
  have hchar : ∀ p : String, p ∈ cleanupTempFiles tempDir files act now ↔
      ∃ f ∈ files, p = joinPath tempDir f.name ∧
        act.contains (joinPath tempDir f.name) = false ∧ f.statFails = false ∧
        cleanupThresholdMs < now - f.mtimeMs := by
    intro p
    rw [cleanupTempFiles_eq, List.mem_map]
    constructor
    · rintro ⟨f, hmemf, rfl⟩
      rw [List.mem_filter] at hmemf
      obtain ⟨hf, hdel⟩ := hmemf
      simp only [sweepDeletes, Bool.and_eq_true, Bool.not_eq_true',
        decide_eq_true_eq] at hdel
      exact ⟨f, hf, rfl, by tauto, by tauto, by tauto⟩
    · rintro ⟨f, hf, rfl, hact, hfail, hage⟩
      refine ⟨f, List.mem_filter.mpr ⟨hf, ?_⟩, rfl⟩
      simp only [sweepDeletes, Bool.and_eq_true, Bool.not_eq_true',
        decide_eq_true_eq]
      tauto
  refine ⟨?_, hchar, ?_⟩
  · intro p hp hmem
    obtain ⟨f, _, rfl, hact, _, _⟩ := (hchar _).mp hmem
    have hc : act.contains (joinPath tempDir f.name) = true :=
      List.elem_eq_true_of_mem hp
    rw [hc] at hact
    simp at hact
  · intro pre f post
    rw [cleanupTempFiles_eq, cleanupTempFiles_eq, cleanupTempFiles_eq,
      List.filter_append, List.filter_cons, List.map_append]
    by_cases hf : sweepDeletes act now tempDir f
    · simp [hf]
    · simp [hf]

theorem cleanup_sweep_policy_witness :
    "temp/a.mp4" ∈ ["temp/a.mp4"] ∧
      "temp/a.mp4" ∉
        cleanupTempFiles "temp" [TempFile.mk "a.mp4" 0 false, TempFile.mk "b.mp4" 0 false]
          ["temp/a.mp4"] 2000000 ∧
      "temp/b.mp4" ∈
        cleanupTempFiles "temp" [TempFile.mk "a.mp4" 0 false, TempFile.mk "b.mp4" 0 false]
          ["temp/a.mp4"] 2000000 :=
  ⟨by decide,
    (cleanup_sweep_policy "temp" [TempFile.mk "a.mp4" 0 false, TempFile.mk "b.mp4" 0 false]
      ["temp/a.mp4"] 2000000).1 "temp/a.mp4" (by decide),
    ((cleanup_sweep_policy "temp" [TempFile.mk "a.mp4" 0 false, TempFile.mk "b.mp4" 0 false]
      ["temp/a.mp4"] 2000000).2.1 "temp/b.mp4").mpr
      ⟨TempFile.mk "b.mp4" 0 false, by decide, rfl, by decide, rfl, by decide⟩⟩

/-- Insertion preserves membership up to adding the inserted element. -/
theorem mem_insertByNewest {x f : DirEntry} {l : List DirEntry} :
    x ∈ insertByNewest f l ↔ x = f ∨ x ∈ l := by
  induction l with
  | nil => simp [insertByNewest]
  | cons g rest ih =>
      by_cases h : g.mtimeMs ≤ f.mtimeMs
      · simp only [insertByNewest, if_pos h, List.mem_cons]
      · simp only [insertByNewest, if_neg h, List.mem_cons, ih]
        tauto

/-- A nonempty list sorted newest-first starts with an element of the list
whose modification time dominates every element. -/
theorem sortByNewest_head_newest (l : List DirEntry) (hne : l ≠ []) :
    ∃ h t, sortByNewest l = h :: t ∧ h ∈ l ∧ ∀ x ∈ l, x.mtimeMs ≤ h.mtimeMs := by
  induction l with
  | nil => exact absurd rfl hne
  | cons a l ih =>
      by_cases hl : l = []
      · subst hl
        refine ⟨a, [], rfl, List.mem_singleton.mpr rfl, ?_⟩
        intro x hx
        rw [List.mem_singleton] at hx
        subst hx
        exact le_refl _
      · obtain ⟨h, t, heq, hmem, hbound⟩ := ih hl
        have hstep : sortByNewest (a :: l) = insertByNewest a (sortByNewest l) := rfl
        rw [hstep, heq]
        by_cases hcmp : h.mtimeMs ≤ a.mtimeMs
        · refine ⟨a, h :: t, by rw [insertByNewest, if_pos hcmp], List.mem_cons_self a l, ?_⟩
          intro x hx
          rw [List.mem_cons] at hx
          rcases hx with hx | hx
          · subst hx; exact le_refl _
          · exact (hbound x hx).trans hcmp
        · refine ⟨h, insertByNewest a t, by rw [insertByNewest, if_neg hcmp],
            List.mem_cons_of_mem a hmem, ?_⟩
          intro x hx
          rw [List.mem_cons] at hx
          rcases hx with hx | hx
          · subst hx; exact le_of_lt (not_le.mp hcmp)
          · exact hbound x hx

/-- C8 (confirmed): retrieval path resolution. With the recorded path intact
it is returned unchanged; with the recorded path missing and at least one
candidate in the directory that starts with the recovery stem, ends in .mp4
and has no .part- marker, the handler proceeds with a candidate whose
modification time dominates all candidates, instead of answering 404. -/
theorem resolveDownloadPath_recovery (fileDir fileBaseName : String)
    (fsExists : String → Bool) (dirFiles : List DirEntry) :
    (fsExists (joinPath fileDir fileBaseName) = true →
      resolveDownloadPath fileDir fileBaseName fsExists dirFiles =
        some (joinPath fileDir fileBaseName)) ∧
    (fsExists (joinPath fileDir fileBaseName) = false →
      ∀ c ∈ dirFiles, isRecoveryCandidate (recoveryStem fileBaseName) c.name = true →
        ∃ g ∈ dirFiles,
          isRecoveryCandidate (recoveryStem fileBaseName) g.name = true ∧
          resolveDownloadPath fileDir fileBaseName fsExists dirFiles =
            some (joinPath fileDir g.name) ∧
          ∀ x ∈ dirFiles, isRecoveryCandidate (recoveryStem fileBaseName) x.name = true →
            x.mtimeMs ≤ g.mtimeMs) := by
  constructor
  · intro hfs
    rw [resolveDownloadPath, if_pos hfs]
  · intro hfs c hc hcand
    have hmemc : c ∈ dirFiles.filter
        (fun f => isRecoveryCandidate (recoveryStem fileBaseName) f.name) :=
      List.mem_filter.mpr ⟨hc, hcand⟩
    obtain ⟨g, t, heq, hmem, hbound⟩ :=
      sortByNewest_head_newest _ (List.ne_nil_of_mem hmemc)
    obtain ⟨hgmem, hgcand⟩ := List.mem_filter.mp hmem
    refine ⟨g, hgmem, hgcand, ?_, ?_⟩
    · have hscan : recoverScan fileBaseName dirFiles = some g.name := by
        rw [recoverScan]
        simp only [heq, List.head?_cons]
        rfl
      rw [resolveDownloadPath, if_neg (by simp [hfs]), hscan]
    · intro x hx hxcand
      exact hbound x (List.mem_filter.mpr ⟨hx, hxcand⟩)

theorem resolveDownloadPath_recovery_witness :
    ∃ g ∈ [DirEntry.mk "vid-22-1000.mp4" 5, DirEntry.mk "vid-22-2000.mp4" 9],
      isRecoveryCandidate (recoveryStem "vid-22-1714.mp4") g.name = true ∧
      resolveDownloadPath "temp" "vid-22-1714.mp4" (fun _ => false)
          [DirEntry.mk "vid-22-1000.mp4" 5, DirEntry.mk "vid-22-2000.mp4" 9] =
        some (joinPath "temp" g.name) ∧
      ∀ x ∈ [DirEntry.mk "vid-22-1000.mp4" 5, DirEntry.mk "vid-22-2000.mp4" 9],
        isRecoveryCandidate (recoveryStem "vid-22-1714.mp4") x.name = true →
          x.mtimeMs ≤ g.mtimeMs :=
  (resolveDownloadPath_recovery "temp" "vid-22-1714.mp4" (fun _ => false)
      [DirEntry.mk "vid-22-1000.mp4" 5, DirEntry.mk "vid-22-2000.mp4" 9]).2 rfl
    (DirEntry.mk "vid-22-1000.mp4" 5) (by decide) (by decide)

/-- C9 (corrected): sanitization policy. Both derivation sites perform the
same per-character replacement, each character is either kept (when it is an
ASCII letter or digit) or turned into exactly one underscore, the length is
preserved before the extension is appended, and the documented example title
renders with three consecutive underscores, not two. -/
theorem sanitize_filename_policy :
    (∀ t : String, fileNameFromTitle t = fileNameFromTitleRetrieve t) ∧
    (∀ t : String, (sanitizeTitle t).length = t.length) ∧
    (∀ c : Char, (isTitleAlnum c = true → sanitizeChar c = c) ∧
      (isTitleAlnum c = false → sanitizeChar c = '_')) ∧
    fileNameFromTitle "Foo: Bar! #1" = "Foo__Bar___1.mp4" := by
  refine ⟨fun t => rfl, ?_, ?_, by decide⟩
  · intro t
    show (t.data.map sanitizeChar).length = t.data.length
    rw [List.length_map]
  · intro c
    constructor
    · intro h
      rw [sanitizeChar, if_pos h]
    · intro h
      rw [sanitizeChar, if_neg (by simp [h])]

theorem sanitize_filename_policy_witness :
    isTitleAlnum 'Q' = true ∧ sanitizeChar 'Q' = 'Q' ∧
      isTitleAlnum '!' = false ∧ sanitizeChar '!' = '_' :=
  ⟨by decide, (sanitize_filename_policy.2.2.1 'Q').1 (by decide), by decide,
    (sanitize_filename_policy.2.2.1 '!').2 (by decide)⟩

/-- C9 counterexample: the title of the documented example contains three
consecutive non-alphanumeric characters before the final digit, so the
derived file name carries three underscores there; the file name claimed by
the specification, with two underscores, differs from it. -/
theorem sanitize_example_cex :
    fileNameFromTitle "Foo: Bar! #1" = "Foo__Bar___1.mp4" ∧
      "Foo__Bar___1.mp4" ≠ "Foo__Bar__1.mp4" := by
  decide

/-- C10 (confirmed): formatDuration renders a missing or zero duration as
Unknown, and a positive duration as h:mm:ss when it reaches one hour and as
m:ss otherwise, with the trailing minute and second fields zero padded to
two digits. -/
theorem formatDuration_spec :
    formatDuration none = "Unknown" ∧ formatDuration (some 0) = "Unknown" ∧
      ∀ s : ℕ, 0 < s → formatDuration (some s) = claimDurationString s := by
  refine ⟨rfl, rfl, ?_⟩
  intro s hs
  have hpad : ∀ n : ℕ, n < 60 → pad2 n = zeroPad2 n := by decide
  have heq : formatDuration (some s) =
      if s = 0 then "Unknown"
      else
        if 0 < s / 3600 then
          toString (s / 3600) ++ ":" ++ pad2 (s % 3600 / 60) ++ ":" ++ pad2 (s % 60)
        else toString (s % 3600 / 60) ++ ":" ++ pad2 (s % 60) := rfl
  rw [heq, if_neg (Nat.pos_iff_ne_zero.mp hs), claimDurationString]
  by_cases h : 3600 ≤ s
  · rw [if_pos (by omega : 0 < s / 3600), if_pos h,
      hpad (s % 3600 / 60) (by omega), hpad (s % 60) (by omega),
      (by omega : s % 3600 / 60 = s / 60 % 60)]
  · rw [if_neg (by omega : ¬ 0 < s / 3600), if_neg h,
      hpad (s % 60) (by omega), (by omega : s % 3600 / 60 = s / 60)]

theorem formatDuration_spec_witness :
    0 < 3725 ∧ formatDuration (some 3725) = claimDurationString 3725 :=
  ⟨by decide, formatDuration_spec.2.2 3725 (by decide)⟩

end Youtubh
